import Mathlib

/-!
Verification development for the gpumon GPU telemetry collector.

The Go sources contain two collector variants:
* `NvidiaSMICollector.Collect` (Snapshot Collector): runs `nvidia-smi -q -x`,
  XML-decodes a per-GPU record list and maps each record to a `GPUData`
  (Canonical Reading) via the normalizers `parseMemory` / `parsePercentage`.
* `DynologCollector.Collect` (Stream-Tail Collector, the untyped-map variant):
  scans stderr lines for the regex `data\s*=\s*(\{.*)$`, JSON-decodes the
  captured payload into a `map[string]interface{}` and builds one reading.

This file shallowly embeds those functions.  Subprocess spawning, XML decoding
and the bufio line scanner are modelled at their output boundary: the Snapshot
collector is embedded from the decoded per-device record list on, and the
stream is a `List String` of the lines the scanner would deliver.  Library
functions the code calls (`strings.ReplaceAll`, `strings.TrimSpace`,
`strconv.ParseInt`, `strconv.ParseFloat`, `encoding/json.Unmarshal`,
`fmt.Sprintf("%v", ...)`, the compiled regex) are modelled explicitly below,
each with a comment stating the modelled behavior and its limits.
Machine `float64` values are modelled as exact decimals (`Dec`, a mantissa
with a power-of-ten exponent); IEEE-754 rounding, infinities and NaN are
not modelled, and no theorem below depends on float rounding behavior.
-/

/-- ASCII decimal digit test, Go's `'0' <= c && c <= '9'` for base-10
`strconv` parsing (codepoints 48..57). -/
def isDigitC (c : Char) : Bool := 48 ≤ c.toNat && c.toNat ≤ 57

/-- Whitespace set trimmed by Go's `strings.TrimSpace` (`unicode.IsSpace`),
restricted to its ASCII part: space, \t, \n, \v, \f, \r.  Non-ASCII Unicode
space classes are not modelled; no claim involves them. -/
def isSpaceGo (c : Char) : Bool :=
  c.toNat = 32 || c.toNat = 9 || c.toNat = 10 || c.toNat = 11 ||
  c.toNat = 12 || c.toNat = 13

/-- `strings.TrimSpace`: drop leading and trailing whitespace. -/
def trimSpaceGo (s : List Char) : List Char :=
  ((s.dropWhile isSpaceGo).reverse.dropWhile isSpaceGo).reverse

/-- `strings.ReplaceAll(val, "%", "")` specialised to the one-character
pattern `"%"`: every `%` is removed. -/
def removePct : List Char → List Char
  | [] => []
  | c :: rest => if c = '%' then removePct rest else c :: removePct rest

/-- `strings.ReplaceAll(val, "MiB", "")`: left-to-right scan removing each
non-overlapping occurrence of `MiB`. -/
def removeMiB : List Char → List Char
  | [] => []
  | [c] => [c]
  | [c, d] => [c, d]
  | c :: d :: e :: rest =>
    if c = 'M' ∧ d = 'i' ∧ e = 'B' then removeMiB rest
    else c :: removeMiB (d :: e :: rest)

/-- Numeric value of a decimal digit string (most significant first). -/
def digitsVal (ds : List Char) : Nat :=
  ds.foldl (fun a c => 10 * a + (c.toNat - 48)) 0

/-- The two error kinds of Go's `strconv.ParseInt`: `ErrSyntax` for malformed
input and `ErrRange` for values outside the requested bit size. -/
inductive GoIntErr where
  | invalid
  | outOfRange
deriving DecidableEq, Repr

/-- Model of Go `strconv.ParseInt(s, 10, 64)`.  Accepts an optional `+`/`-`
sign followed by one or more ASCII decimal digits.  Malformed input returns
`(0, ErrSyntax)`.  A value outside the int64 range returns the clamped
extreme of the appropriate sign together with `ErrRange` (per the Go
documentation: "the returned value is the maximum magnitude integer of the
appropriate bitSize and sign").  Underscore digit separators are rejected by
Go for an explicit base, as here. -/
def parseIntGo (cs : List Char) : Int × Option GoIntErr :=
  match cs with
  | [] => (0, some GoIntErr.invalid)
  | c :: t =>
    let ds := if c = '-' ∨ c = '+' then t else c :: t
    if ds.isEmpty then (0, some GoIntErr.invalid)
    else if ds.all isDigitC then
      let v : Nat := digitsVal ds
      if c = '-' then
        if 2 ^ 63 < v then (-(2 ^ 63), some GoIntErr.outOfRange)
        else (-(v : Int), none)
      else
        if 2 ^ 63 ≤ v then (2 ^ 63 - 1, some GoIntErr.outOfRange)
        else ((v : Int), none)
    else (0, some GoIntErr.invalid)

/-- Go multiplication of int64 values wraps around modulo 2^64
(two's complement). -/
def wrapInt64 (n : Int) : Int := (n + 2 ^ 63) % 2 ^ 64 - 2 ^ 63

/-- `parsePercentage` (src/main.go): strip every `%`, trim whitespace, then
`strconv.ParseInt(s, 10, 64)`, returning Go's (value, error) pair. -/
def parsePercentage (val : String) : Int × Option GoIntErr :=
  parseIntGo (trimSpaceGo (removePct val.data))

/-- `parseMemory` (src/main.go): strip every `MiB`, trim whitespace, parse as
int64; on parse error return `(0, err)`, otherwise `num * 1024 * 1024`
(int64 multiplication, hence wrapping). -/
def parseMemory (val : String) : Int × Option GoIntErr :=
  match parseIntGo (trimSpaceGo (removeMiB val.data)) with
  | (_, some e) => (0, some e)
  | (num, none) => (wrapInt64 (num * 1024 * 1024), none)

/-- `GPUData` (src/main.go): the Canonical Reading record. -/
structure GPUData where
  id : String
  name : String
  memoryUsedBytes : Int
  gpuUtilPercent : Int
deriving DecidableEq, Repr

/-- One per-GPU record of the XML document decoded inside
`NvidiaSMICollector.Collect`: id attribute, product name, the
`fb_memory_usage/used` string and the `utilization/gpu_util` string. -/
structure SMIGPU where
  id : String
  productName : String
  fbMemoryUsed : String
  gpuUtil : String
deriving DecidableEq, Repr

/-- The record-mapping loop of `NvidiaSMICollector.Collect` (src/main.go
lines 90-101): one `GPUData` per decoded record, with both field parse
errors discarded (`mem, _ :=` / `util, _ :=`). -/
def nvidiaReadings (gpus : List SMIGPU) : List GPUData :=
  gpus.map fun g =>
    { id := g.id
      name := g.productName
      memoryUsedBytes := (parseMemory g.fbMemoryUsed).1
      gpuUtilPercent := (parsePercentage g.gpuUtil).1 }

/-- `NvidiaSMICollector.Collect` from the decoded document on: after a
successful subprocess run and XML decode it unconditionally returns the
mapped readings and a nil error (`return results, nil`). -/
def nvidiaSMICollect (gpus : List SMIGPU) : Except String (List GPUData) :=
  Except.ok (nvidiaReadings gpus)

/-- An exact decimal value `m * 10 ^ e`, the embedding's stand-in for Go's
`float64`.  Every numeric literal a JSON document or a Go float string can
denote is such a decimal; arithmetic on them below is exact.  IEEE-754
rounding is deliberately not modelled: the model coincides with the
program's float64 pipeline only on values that float64 represents exactly
and whose products stay exactly representable and within int64 range
(see `Dec.fpExactSmall`).  Every theorem whose conclusion depends on a
numeric field value carries hypotheses confining it to that domain; outside
it (e.g. the non-dyadic "0.29", or ratios whose byte product leaves the
int64 range) the program's rounding and implementation-defined conversions
can differ from the exact arithmetic, and no theorem claims anything
there. -/
structure Dec where
  m : Int
  e : Int
deriving DecidableEq, Repr

/-- Rational value denoted by a `Dec` (specification side only). -/
def Dec.toQ (d : Dec) : ℚ :=
  if 0 ≤ d.e then (d.m : ℚ) * (10 : ℚ) ^ d.e.toNat
  else (d.m : ℚ) / (10 : ℚ) ^ (-d.e).toNat

/-- Multiplication of a decimal by a natural constant, exact where the
program's float64 multiply is exact: by 1024*1024 this is a pure exponent
shift (never rounds short of overflow), and by 100 it is exact whenever the
product's mantissa stays below 2^53 (guaranteed by the `Dec.fpExactSmall`
hypotheses of the theorems that use it).  Outside that domain float64
rounds and this model does not follow it. -/
def Dec.mulNat (d : Dec) (k : Nat) : Dec := ⟨d.m * k, d.e⟩

/-- Go's `int64(f)` conversion: truncation toward zero, faithful exactly on
the int64 range.  For a float64 value outside that range the conversion is
implementation-defined in Go (gc/amd64 yields MinInt64); that case is not
modelled, and every theorem below bounds its inputs so the truncated value
stays within int64 range. -/
def Dec.trunc (d : Dec) : Int :=
  if 0 ≤ d.e then d.m * ((10 ^ d.e.toNat : Nat) : Int)
  else if 0 ≤ d.m then ((d.m.toNat / 10 ^ (-d.e).toNat : Nat) : Int)
  else -((((-d.m).toNat / 10 ^ (-d.e).toNat : Nat) : Int))

/-- JSON values as decoded by `encoding/json.Unmarshal` into
`map[string]interface{}`: null, bool, number (float64, here exact decimal),
string, array, object.  Object fields keep document order; on duplicate
keys Go's map assignment makes the last occurrence win (see `jLookup`). -/
inductive Json where
  | null
  | bool (b : Bool)
  | num (d : Dec)
  | str (s : String)
  | arr (xs : List Json)
  | obj (kvs : List (String × Json))

/-- Lookup in a decoded object, last occurrence of the key winning, matching
Go map assignment order during decoding. -/
def jLookup (kvs : List (String × Json)) (k : String) : Option Json :=
  match kvs.reverse.find? (fun p => p.1 == k) with
  | some p => some p.2
  | none => none

/-- Value of a hexadecimal digit, for JSON `\uXXXX` escapes. -/
def hexDigitVal (c : Char) : Option Nat :=
  if 48 ≤ c.toNat ∧ c.toNat ≤ 57 then some (c.toNat - 48)
  else if 97 ≤ c.toNat ∧ c.toNat ≤ 102 then some (c.toNat - 87)
  else if 65 ≤ c.toNat ∧ c.toNat ≤ 70 then some (c.toNat - 55)
  else none

/-- Single-character JSON escapes. -/
def escChar (c : Char) : Option Char :=
  if c = '\"' then some '\"'
  else if c = '\\' then some '\\'
  else if c = '/' then some '/'
  else if c = 'b' then some (Char.ofNat 8)
  else if c = 'f' then some (Char.ofNat 12)
  else if c = 'n' then some '\n'
  else if c = 'r' then some '\r'
  else if c = 't' then some '\t'
  else none

/-- JSON string body after the opening quote: returns the decoded characters
and the remainder after the closing quote.  Control characters below 0x20
are rejected, as in Go.  Surrogate-pair recombination for `\u` escapes is
not modelled (Go substitutes U+FFFD for lone surrogates); no claim uses
them. -/
def parseJStringBody : List Char → Option (List Char × List Char)
  | [] => none
  | '\"' :: rest => some ([], rest)
  | '\\' :: 'u' :: h1 :: h2 :: h3 :: h4 :: rest =>
    (match hexDigitVal h1, hexDigitVal h2, hexDigitVal h3, hexDigitVal h4 with
     | some a, some b, some c, some d =>
       (match parseJStringBody rest with
        | some (s, r) => some (Char.ofNat (4096 * a + 256 * b + 16 * c + d) :: s, r)
        | none => none)
     | _, _, _, _ => none)
  | '\\' :: ec :: rest =>
    (match escChar ec with
     | some c =>
       (match parseJStringBody rest with
        | some (s, r) => some (c :: s, r)
        | none => none)
     | none => none)
  | c :: rest =>
    if c.toNat < 32 then none
    else
      match parseJStringBody rest with
      | some (s, r) => some (c :: s, r)
      | none => none

/-- Exponent part of a JSON number or Go float string: `[eE][+-]?digits`,
or nothing (exponent 0). -/
def parseJExp (cs : List Char) : Option (Int × List Char) :=
  match cs with
  | c :: rest =>
    if c = 'e' ∨ c = 'E' then
      let signTail : Bool × List Char :=
        match rest with
        | '-' :: t => (true, t)
        | '+' :: t => (false, t)
        | _ => (false, rest)
      let ed := signTail.2.takeWhile isDigitC
      if ed.isEmpty then none
      else
        some ((if signTail.1 then -(digitsVal ed : Int) else (digitsVal ed : Int)),
              signTail.2.dropWhile isDigitC)
    else some (0, cs)
  | [] => some (0, [])

/-- JSON number grammar: `-? (0 | [1-9][0-9]*) (.[0-9]+)? ([eE][+-]?[0-9]+)?`,
producing the denoted decimal exactly.  Go decodes into float64, i.e. the
nearest binary64 to this decimal (and errors outside the float64 range):
the exact decimal equals that float64 precisely when the decimal is a
dyadic with mantissa below 2^53, which is what the `Dec.fpExactSmall`
hypotheses of the value-sensitive theorems guarantee; rounding of
non-representable decimals is not modelled. -/
def parseJNumber (cs : List Char) : Option (Dec × List Char) :=
  let negB : Bool := cs.head? == some '-'
  let cs1 := if negB then cs.tail else cs
  let ip := cs1.takeWhile isDigitC
  if ip.isEmpty then none
  else if ip.head? == some '0' && ip.length != 1 then none
  else
    match
      (match cs1.dropWhile isDigitC with
       | '.' :: rest =>
         let fd := rest.takeWhile isDigitC
         if fd.isEmpty then none else some (fd, rest.dropWhile isDigitC)
       | other => some ([], other)) with
    | none => none
    | some (fd, r2) =>
      match parseJExp r2 with
      | none => none
      | some (ex, r3) =>
        let mAbs : Int := (digitsVal (ip ++ fd) : Int)
        some (⟨if negB then -mAbs else mAbs, ex - (fd.length : Int)⟩, r3)

/-- JSON whitespace: space, tab, LF, CR. -/
def jWs (c : Char) : Bool :=
  c.toNat = 32 || c.toNat = 9 || c.toNat = 10 || c.toNat = 13

/-- Parser mode: a value, an object's member list, or an array's element
list (`first` is true right after the opening brace/bracket, where an
immediate closer is legal). -/
inductive JMode where
  | top
  | fieldsM (first : Bool)
  | itemsM (first : Bool)

/-- Parser intermediate result. -/
inductive JOut where
  | val (j : Json)
  | fields (kvs : List (String × Json))
  | items (xs : List Json)

/-- Recursive JSON parser, fuelled to stay structurally recursive (the fuel
passed by `jsonUnmarshalMap` always suffices: every recursive call consumes
at least one input character). -/
def parseJ : Nat → JMode → List Char → Option (JOut × List Char)
  | 0, _, _ => none
  | Nat.succ fuel, JMode.top, cs =>
    (match cs.dropWhile jWs with
     | '\x7b' :: rest =>
       (match parseJ fuel (JMode.fieldsM true) rest with
        | some (JOut.fields kvs, r) => some (JOut.val (Json.obj kvs), r)
        | _ => none)
     | '[' :: rest =>
       (match parseJ fuel (JMode.itemsM true) rest with
        | some (JOut.items xs, r) => some (JOut.val (Json.arr xs), r)
        | _ => none)
     | '\"' :: rest =>
       (match parseJStringBody rest with
        | some (s, r) => some (JOut.val (Json.str (String.mk s)), r)
        | none => none)
     | 't' :: 'r' :: 'u' :: 'e' :: r => some (JOut.val (Json.bool true), r)
     | 'f' :: 'a' :: 'l' :: 's' :: 'e' :: r => some (JOut.val (Json.bool false), r)
     | 'n' :: 'u' :: 'l' :: 'l' :: r => some (JOut.val Json.null, r)
     | rest =>
       (match parseJNumber rest with
        | some (d, r) => some (JOut.val (Json.num d), r)
        | none => none))
  | Nat.succ fuel, JMode.fieldsM first, cs =>
    (match cs.dropWhile jWs with
     | '\x7d' :: rest => if first then some (JOut.fields [], rest) else none
     | '\"' :: rest =>
       (match parseJStringBody rest with
        | none => none
        | some (k, r1) =>
          (match r1.dropWhile jWs with
           | ':' :: r2 =>
             (match parseJ fuel JMode.top r2 with
              | some (JOut.val v, r3) =>
                (match r3.dropWhile jWs with
                 | ',' :: r4 =>
                   (match parseJ fuel (JMode.fieldsM false) r4 with
                    | some (JOut.fields kvs, r5) =>
                      some (JOut.fields ((String.mk k, v) :: kvs), r5)
                    | _ => none)
                 | '\x7d' :: r4 => some (JOut.fields [(String.mk k, v)], r4)
                 | _ => none)
              | _ => none)
           | _ => none))
     | _ => none)
  | Nat.succ fuel, JMode.itemsM first, cs =>
    (match cs.dropWhile jWs with
     | ']' :: rest => if first then some (JOut.items [], rest) else none
     | rest =>
       (match parseJ fuel JMode.top rest with
        | some (JOut.val v, r1) =>
          (match r1.dropWhile jWs with
           | ',' :: r2 =>
             (match parseJ fuel (JMode.itemsM false) r2 with
              | some (JOut.items xs, r3) => some (JOut.items (v :: xs), r3)
              | _ => none)
           | ']' :: r2 => some (JOut.items [v], r2)
           | _ => none)
        | _ => none))

/-- `json.Unmarshal(data, &j)` with `j : map[string]interface{}`: the input
must be one complete JSON value with nothing but whitespace after it, and
that value must be an object (anything else is an unmarshal type error,
returned as an error by the collector). -/
def jsonUnmarshalMap (cs : List Char) : Option (List (String × Json)) :=
  match parseJ (2 * cs.length + 4) JMode.top cs with
  | some (JOut.val (Json.obj kvs), rest) =>
    if (rest.dropWhile jWs).isEmpty then some kvs else none
  | _ => none

/-- Model of Go `strconv.ParseFloat(s, 64)` restricted to finite decimal
forms `[+-]? (digits [. digits*] | . digits+) ([eE][+-]?digits)?` consuming
the whole string.  `Inf`/`NaN` forms, hexadecimal floats and underscore
separators are not modelled and yield `none`.  The result is the exact
denoted decimal, whereas Go returns the nearest float64; the two coincide
exactly on dyadic values with mantissa below 2^53 (`Dec.fpExactSmall`),
to which the value-sensitive theorems confine themselves — the rounding of
other decimals (e.g. "0.29") is not modelled.  No claim depends on the
unmodelled cases. -/
def parseFloatGo (cs : List Char) : Option Dec :=
  let negB : Bool := cs.head? == some '-'
  let signed : Bool := negB || (cs.head? == some '+')
  let cs1 := if signed then cs.tail else cs
  let ip := cs1.takeWhile isDigitC
  match
    (match cs1.dropWhile isDigitC with
     | '.' :: rest => some (rest.takeWhile isDigitC, rest.dropWhile isDigitC)
     | other => some ([], other)) with
  | none => none
  | some (fd, r2) =>
    if ip.isEmpty && fd.isEmpty then none
    else
      match parseJExp r2 with
      | none => none
      | some (ex, r3) =>
        if r3.isEmpty then
          let mAbs : Int := (digitsVal (ip ++ fd) : Int)
          some ⟨if negB then -mAbs else mAbs, ex - (fd.length : Int)⟩
        else none

/-- `parseOptionalFloat` (src/main.go lines 530-533):
`f, _ := strconv.ParseFloat(fmt.Sprintf("%v", val), 64)` — any error is
discarded, leaving 0.  A missing key (nil interface) prints as `<nil>`,
booleans as `true`/`false`, slices/maps in fmt's composite syntax: none of
those re-parse as floats, so they default to 0.  A float64 prints in
shortest round-trip form and re-parses to the same value (modelled as the
identity); a string prints as itself and goes through ParseFloat. -/
def parseOptionalFloat : Option Json → Dec
  | some (Json.num d) => d
  | some (Json.str s) =>
    (match parseFloatGo s.data with
     | some d => d
     | none => ⟨0, 0⟩)
  | _ => ⟨0, 0⟩

/-- Integer denoted by a decimal, when it is integral. -/
def Dec.toIntIfExact? (d : Dec) : Option Int :=
  if 0 ≤ d.e then some (d.m * ((10 ^ d.e.toNat : Nat) : Int))
  else if d.m % ((10 ^ (-d.e).toNat : Nat) : Int) = 0 then
    some (d.m / ((10 ^ (-d.e).toNat : Nat) : Int))
  else none

/-- Go `fmt`'s `%v` rendering of a float64 (`strconv.FormatFloat(f, 'g', -1,
64)`), modelled faithfully on integral values of magnitude below 10^6,
where Go prints plain decimal digits (at 10^6 and above the shortest `%g`
form switches to exponent notation, e.g. `1e+06`).  Other values render as
an opaque token no theorem relies on. -/
def goFormatF64 (d : Dec) : String :=
  match d.toIntIfExact? with
  | some n => if n.natAbs < 1000000 then toString n else ("unmodeled-float-repr")
  | none => "unmodeled-float-repr"

/-- `fmt.Sprintf("%v", val)` for a decoded JSON field (`interface{}`):
nil prints `<nil>`, JSON null decodes to nil, bools and strings print
themselves, numbers as float64 via `%g`.  fmt's composite rendering of
slices/maps is not modelled (opaque token, no theorem relies on it). -/
def goSprintV : Option Json → String
  | none => "<nil>"
  | some Json.null => "<nil>"
  | some (Json.bool true) => "true"
  | some (Json.bool false) => "false"
  | some (Json.str s) => s
  | some (Json.num d) => goFormatF64 d
  | some (Json.arr _) => "unmodeled-composite"
  | some (Json.obj _) => "unmodeled-composite"

/-- `\s` of Go's regexp (RE2): `[\t\n\f\r ]`. -/
def reWs (c : Char) : Bool :=
  c.toNat = 9 || c.toNat = 10 || c.toNat = 12 || c.toNat = 13 || c.toNat = 32

/-- Attempt to match the compiled regex `data\s*=\s*(\{.*)$` at the head of
`cs`: literal `data`, optional whitespace, `=`, optional whitespace, then
the capture group — a literal `{` and the rest of the line (`.` cannot
cross a newline and `$` anchors at end of text, so a match requires no
newline after the brace).  Returns the capture (from `{` to the end). -/
def tryDataAt (cs : List Char) : Option (List Char) :=
  match cs with
  | 'd' :: 'a' :: 't' :: 'a' :: rest =>
    (match rest.dropWhile reWs with
     | '=' :: r2 =>
       (match r2.dropWhile reWs with
        | '\x7b' :: tail => if tail.contains '\n' then none else some ('\x7b' :: tail)
        | _ => none)
     | _ => none)
  | _ => none

/-- `dataRegex.FindStringSubmatch(line)`: leftmost match of
`data\s*=\s*(\{.*)$`, returning the capture group. -/
def findData : List Char → Option (List Char)
  | [] => none
  | c :: cs =>
    match tryDataAt (c :: cs) with
    | some p => some p
    | none => findData cs

/-- Payload-to-readings step of `DynologCollector.Collect` (src/main.go
lines 507-521, the untyped-map variant): JSON-decode the captured payload
into a map (an error aborts the call with a parse error), then build one
Canonical Reading: id from `device` via `%v`, fixed name `DCGM-GPU`,
memory bytes `int64(gpu_memory_utilization * 1024 * 1024)`, utilization
`int64(sm_active_ratio * 100)`. -/
def dynologProcessPayload (raw : List Char) : Except String (List GPUData) :=
  match jsonUnmarshalMap raw with
  | none => Except.error ("json parse error")
  | some kvs =>
    let id := goSprintV (jLookup kvs ("device"))
    let memUtil := parseOptionalFloat (jLookup kvs ("gpu_memory_utilization"))
    let memUsed := (memUtil.mulNat (1024 * 1024)).trunc
    let util := parseOptionalFloat (jLookup kvs ("sm_active_ratio"))
    Except.ok [⟨id, "DCGM-GPU", memUsed, (util.mulNat 100).trunc⟩]

/-- `DynologCollector.Collect` (src/main.go lines 498-528): scan successive
lines of the attached stream; a line without a regex match is skipped
(after being echoed); the first matching line's capture is processed and
the call returns, leaving the cursor after that line.  If the stream ends
first the call returns the "no dynolog JSON lines found yet" error (the
scanner's read-error case is not modelled: the stream is the list of lines
actually delivered).  The returned list is the unconsumed remainder of the
stream — the collector's cursor state. -/
def dynologCollect : List String → Except String (List GPUData) × List String
  | [] => (Except.error ("no dynolog JSON lines found yet"), [])
  | l :: rest =>
    match findData l.data with
    | none => dynologCollect rest
    | some raw => (dynologProcessPayload raw, rest)

/-- Claim-side syntactic shape accepted by `strconv.ParseInt(s, 10, 64)`:
an optional sign followed by at least one ASCII decimal digit.  Input
failing this shape is "non-numeric content, or the numeric part absent". -/
def looksNumeric (cs : List Char) : Bool :=
  match cs with
  | [] => false
  | c :: t =>
    let ds := if c = '-' ∨ c = '+' then t else c :: t
    !ds.isEmpty && ds.all isDigitC

/-- A decoded JSON field that is absent or does not carry a numeric value
re-parsable by `parseOptionalFloat`'s round trip: missing key, null, bool,
array, object, or a string that ParseFloat rejects. -/
def nonNumericFieldB : Option Json → Bool
  | some (Json.num _) => false
  | some (Json.str s) => (parseFloatGo s.data).isNone
  | _ => true

/-- The domain on which the exact-decimal model provably coincides with
Go's float64 pipeline: the value is `a / 2^k` with `k ≤ 52` and
`|a| ≤ 2^42`.  Such a value is exactly representable as a float64
(mantissa `a`, well below 2^53), so `ParseFloat`/JSON decoding return it
exactly; multiplying it by 100 is exact (`|100 a| < 2^53`) and by
1024*1024 is a pure exponent shift; and both products, at most
`2^42 * 2^20 = 2^62`, truncate inside the int64 range where Go's
float-to-int conversion is defined.  On values outside this set — e.g. the
non-dyadic 0.29, whose float64 is 0.28999999999999998..., making Go
truncate 0.29*100 to 28 — the program's rounding can differ from exact
arithmetic, so the value-sensitive theorems below hypothesise membership
in this domain. -/
def Dec.fpExactSmall (d : Dec) : Prop :=
  ∃ (a : Int) (k : ℕ), k ≤ 52 ∧ a.natAbs ≤ 2 ^ 42 ∧ d.toQ = (a : ℚ) / 2 ^ k

-- ---------------------------------------------------------------------------
-- Helper lemmas
-- ---------------------------------------------------------------------------

theorem isDigitC_iff {c : Char} : isDigitC c = true ↔ 48 ≤ c.toNat ∧ c.toNat ≤ 57 := by
  simp [isDigitC]

theorem isSpaceGo_eq_false_of_digit {c : Char} (h : isDigitC c = true) :
    isSpaceGo c = false := by
  have h' := isDigitC_iff.mp h
  simp [isSpaceGo]
  omega

theorem not_sign_of_digit {c : Char} (h : isDigitC c = true) : ¬ (c = '-' ∨ c = '+') := by
  have h' := isDigitC_iff.mp h
  rintro (rfl | rfl) <;> simp at h'

theorem ne_pct_of_digit {c : Char} (h : isDigitC c = true) : ¬ c = '%' := by
  have h' := isDigitC_iff.mp h
  rintro rfl; simp at h'

theorem ne_M_of_digit {c : Char} (h : isDigitC c = true) : ¬ c = 'M' := by
  have h' := isDigitC_iff.mp h
  rintro rfl; simp at h'

theorem removePct_append {l r : List Char} (h : ∀ c ∈ l, ¬ c = '%') :
    removePct (l ++ r) = l ++ removePct r := by
  induction l with
  | nil => rfl
  | cons c t ih =>
    have hc := h c (by simp)
    have ih' := ih (fun c hc => h c (by simp [hc]))
    simp [removePct, hc, ih']

theorem removeMiB_cons_ne {c : Char} {xs : List Char} (h : ¬ c = 'M') :
    removeMiB (c :: xs) = c :: removeMiB xs := by
  match xs with
  | [] => rfl
  | [d] => rfl
  | d :: e :: rest =>
    have : ¬ (c = 'M' ∧ d = 'i' ∧ e = 'B') := fun hx => h hx.1
    simp only [removeMiB, if_neg this]

theorem removeMiB_append {l r : List Char} (h : ∀ c ∈ l, ¬ c = 'M') :
    removeMiB (l ++ r) = l ++ removeMiB r := by
  induction l with
  | nil => rfl
  | cons c t ih =>
    rw [List.cons_append, removeMiB_cons_ne (h c (by simp)),
      ih (fun c hc => h c (by simp [hc])), List.cons_append]

theorem dropWhile_isSpaceGo_of_digits {l : List Char} (h : ∀ c ∈ l, isDigitC c = true) :
    l.dropWhile isSpaceGo = l := by
  cases l with
  | nil => rfl
  | cons c t =>
    rw [List.dropWhile_cons, if_neg]
    simp [isSpaceGo_eq_false_of_digit (h c (by simp))]

theorem trimSpaceGo_digits {ds : List Char} (h : ∀ c ∈ ds, isDigitC c = true) :
    trimSpaceGo ds = ds := by
  unfold trimSpaceGo
  rw [dropWhile_isSpaceGo_of_digits h, dropWhile_isSpaceGo_of_digits
    (fun c hc => h c (List.mem_reverse.mp hc)), List.reverse_reverse]

theorem trimSpaceGo_digits_space {ds : List Char} (hne : ds ≠ [])
    (h : ∀ c ∈ ds, isDigitC c = true) :
    trimSpaceGo (ds ++ [' ']) = ds := by
  obtain ⟨c, t, rfl⟩ := List.exists_cons_of_ne_nil hne
  unfold trimSpaceGo
  rw [List.cons_append, List.dropWhile_cons, if_neg
    (by simp [isSpaceGo_eq_false_of_digit (h c (by simp))])]
  rw [show (c :: (t ++ [' '])).reverse = ' ' :: (c :: t).reverse by simp]
  rw [List.dropWhile_cons, if_pos (by simp [isSpaceGo])]
  rw [dropWhile_isSpaceGo_of_digits (fun x hx => h x (List.mem_reverse.mp hx)),
    List.reverse_reverse]

theorem parseIntGo_digits {ds : List Char} (hne : ds ≠ [])
    (h : ∀ c ∈ ds, isDigitC c = true) (hlt : digitsVal ds < 2 ^ 63) :
    parseIntGo ds = ((digitsVal ds : Int), none) := by
  obtain ⟨c, t, rfl⟩ := List.exists_cons_of_ne_nil hne
  have hc := h c (by simp)
  have hs := not_sign_of_digit hc
  simp only [parseIntGo, if_neg hs]
  rw [if_neg (by simp), if_pos (by simpa [List.all_eq_true] using h)]
  rw [if_neg (fun hcm : c = '-' => hs (Or.inl hcm)), if_neg (by omega)]

theorem wrapInt64_eq_self {n : Int} (h0 : -(2 ^ 63) ≤ n) (h1 : n < 2 ^ 63) :
    wrapInt64 n = n := by
  unfold wrapInt64
  rw [Int.emod_eq_of_lt (by omega) (by omega)]
  omega

theorem parsePercentage_digits {s : String} {ds : List Char}
    (hs : s.data = ds ++ ['%']) (hne : ds ≠ [])
    (h : ∀ c ∈ ds, isDigitC c = true) (hlt : digitsVal ds < 2 ^ 63) :
    parsePercentage s = ((digitsVal ds : Int), none) := by
  unfold parsePercentage
  rw [hs, removePct_append (fun c hc => ne_pct_of_digit (h c hc))]
  have : removePct ['%'] = [] := rfl
  rw [this, List.append_nil, trimSpaceGo_digits h, parseIntGo_digits hne h hlt]

theorem parseMemory_digits {s : String} {ds : List Char}
    (hs : s.data = ds ++ [' ', 'M', 'i', 'B']) (hne : ds ≠ [])
    (h : ∀ c ∈ ds, isDigitC c = true) (hlt : digitsVal ds < 2 ^ 63) :
    parseMemory s = (wrapInt64 ((digitsVal ds : Int) * 1024 * 1024), none) := by
  unfold parseMemory
  rw [show ds ++ [' ', 'M', 'i', 'B'] = (ds ++ [' ']) ++ ['M', 'i', 'B'] by simp] at hs
  rw [hs, removeMiB_append (by
    intro c hc
    rcases List.mem_append.mp hc with hc | hc
    · exact ne_M_of_digit (h c hc)
    · simp at hc
      subst hc
      decide)]
  have : removeMiB ['M', 'i', 'B'] = [] := rfl
  rw [this, List.append_nil, trimSpaceGo_digits_space hne h, parseIntGo_digits hne h hlt]

theorem parseIntGo_snd_invalid {cs : List Char}
    (h : (parseIntGo cs).2 = some GoIntErr.invalid) : (parseIntGo cs).1 = 0 := by
  unfold parseIntGo at *
  cases cs with
  | nil => rfl
  | cons c t =>
    simp only at h ⊢
    split_ifs at h ⊢ <;> simp_all

theorem parseIntGo_snd_range {cs : List Char}
    (h : (parseIntGo cs).2 = some GoIntErr.outOfRange) :
    (parseIntGo cs).1 = 2 ^ 63 - 1 ∨ (parseIntGo cs).1 = -(2 ^ 63) := by
  unfold parseIntGo at *
  cases cs with
  | nil => simp at h
  | cons c t =>
    simp only at h ⊢
    split_ifs at h ⊢ <;> simp_all

theorem parseIntGo_ok_shape {cs : List Char} (h : (parseIntGo cs).2 = none) :
    looksNumeric cs = true := by
  unfold parseIntGo at h
  unfold looksNumeric
  cases cs with
  | nil => simp at h
  | cons c t =>
    simp only at h ⊢
    split_ifs at h ⊢ <;> simp_all

theorem parseIntGo_err_of_not_numeric {cs : List Char}
    (h : looksNumeric cs = false) : (parseIntGo cs).2.isSome = true := by
  cases he : (parseIntGo cs).2 with
  | none => rw [parseIntGo_ok_shape he] at h; simp at h
  | some e => rfl

-- ---------------------------------------------------------------------------
-- Claim theorems
-- ---------------------------------------------------------------------------

/-- C1: the Snapshot Collector applied to a document with exactly one device
record (id "0", name "Test-GPU", used "1024 MiB", util "42%") returns
exactly one Canonical Reading {0, Test-GPU, 1073741824 bytes, 42%} and no
error. -/
theorem c1_snapshot_round_trip :
    nvidiaSMICollect [⟨"0", "Test-GPU", "1024 MiB", "42%"⟩] =
      Except.ok [⟨"0", "Test-GPU", 1073741824, 42⟩] := by rfl

/-- C2 counterexample: the claim "for every valid `<n> MiB` string the
memory normalizer returns n * 1024 * 1024" fails at
n = 9000000000000000000: the value parses as int64, but the int64 product
n * 1024 * 1024 wraps around modulo 2^64 and is not n * 1024 * 1024. -/
theorem c2_memory_overflow_cex :
    ¬ (parseMemory ("9000000000000000000 MiB")).1 =
      9000000000000000000 * 1024 * 1024 := by decide

/-- C2 amended: for `<n>%` with n a decimal numeral of value below 2^63 the
percentage normalizer returns n; for `<n> MiB` with n below 2^63 the memory
normalizer returns n * 1024 * 1024 wrapped to int64 range, which equals
n * 1024 * 1024 exactly whenever that product is below 2^63. -/
theorem c2_normalizers_amended :
    (∀ (s : String) (ds : List Char), s.data = ds ++ ['%'] → ds ≠ [] →
       (∀ c ∈ ds, isDigitC c = true) → digitsVal ds < 2 ^ 63 →
       parsePercentage s = ((digitsVal ds : Int), none)) ∧
    (∀ (s : String) (ds : List Char), s.data = ds ++ [' ', 'M', 'i', 'B'] → ds ≠ [] →
       (∀ c ∈ ds, isDigitC c = true) → digitsVal ds < 2 ^ 63 →
       parseMemory s = (wrapInt64 ((digitsVal ds : Int) * 1024 * 1024), none) ∧
       (digitsVal ds * 1048576 < 2 ^ 63 →
          (parseMemory s).1 = (digitsVal ds : Int) * 1048576)) := by
  constructor
  · intro s ds hs hne h hlt
    exact parsePercentage_digits hs hne h hlt
  · intro s ds hs hne h hlt
    have hmem := parseMemory_digits hs hne h hlt
    refine ⟨hmem, fun hsm => ?_⟩
    rw [hmem]
    have hnn : (0 : Int) ≤ (digitsVal ds : Int) * 1024 * 1024 := by positivity
    have heq : (digitsVal ds : Int) * 1024 * 1024 = ((digitsVal ds * 1048576 : ℕ) : Int) := by
      push_cast; ring
    rw [wrapInt64_eq_self (by omega) (by rw [heq]; exact_mod_cast hsm)]
    rw [heq]; push_cast; ring

/-- C2 witness: concrete instances of the amended statement. -/
theorem c2_normalizers_amended_witness :
    parsePercentage ("42%") = (42, none) ∧ (parseMemory ("1024 MiB")).1 = 1073741824 := by
  constructor
  · have h := c2_normalizers_amended.1 ("42%") ['4', '2'] (by decide) (by decide)
      (by decide) (by decide)
    rw [h]; decide
  · have h := (c2_normalizers_amended.2 ("1024 MiB") ['1', '0', '2', '4'] (by decide)
      (by decide) (by decide) (by decide)).2 (by decide)
    rw [h]; decide

/-- C3 counterexample: the claim "the failed field's value is reported as
zero" fails for a utilization string whose numeric part is out of int64
range: the record is still produced, but Go's ParseInt returns the clamped
maximum int64 together with ErrRange, and the discarded-error path leaves
that clamped value, 9223372036854775807, not zero, in the reading. -/
theorem c3_range_not_zero_cex :
    nvidiaReadings [⟨"0", "G", "X", "99999999999999999999%"⟩] =
      [⟨"0", "G", 0, 9223372036854775807⟩] ∧
    (parsePercentage ("99999999999999999999%")).2 = some GoIntErr.outOfRange ∧
    ¬ (9223372036854775807 : Int) = 0 := by decide

/-- C3 amended: a field parse failure never aborts the record (one reading
per decoded record, always); a memory-field failure is reported as zero; a
utilization-field syntax failure is reported as zero, but an out-of-range
utilization value is reported as the clamped extreme int64 of its sign
(2^63 - 1 or -2^63) rather than zero. -/
theorem c3_field_failure_amended :
    (∀ gs : List SMIGPU, (nvidiaReadings gs).length = gs.length) ∧
    (∀ s : String, (parseMemory s).2.isSome = true → (parseMemory s).1 = 0) ∧
    (∀ s : String, (parsePercentage s).2 = some GoIntErr.invalid →
       (parsePercentage s).1 = 0) ∧
    (∀ s : String, (parsePercentage s).2 = some GoIntErr.outOfRange →
       (parsePercentage s).1 = 2 ^ 63 - 1 ∨ (parsePercentage s).1 = -(2 ^ 63)) := by
  refine ⟨fun gs => List.length_map _ _, fun s h => ?_, fun s h => ?_, fun s h => ?_⟩
  · unfold parseMemory at *
    rcases hp : parseIntGo (trimSpaceGo (removeMiB s.data)) with ⟨v, e⟩
    cases e <;> simp_all
  · exact parseIntGo_snd_invalid h
  · exact parseIntGo_snd_range h

/-- C3 witness: concrete instances — a reading count, a malformed memory
field reported as zero, and a clamped out-of-range utilization. -/
theorem c3_field_failure_amended_witness :
    (nvidiaReadings [⟨"0", "G", "X", "99%"⟩]).length = 1 ∧
    (parseMemory ("N/A")).1 = 0 ∧
    ((parsePercentage ("99999999999999999999%")).1 = 2 ^ 63 - 1 ∨
       (parsePercentage ("99999999999999999999%")).1 = -(2 ^ 63)) := by
  refine ⟨c3_field_failure_amended.1 [⟨"0", "G", "X", "99%"⟩], ?_, ?_⟩
  · exact c3_field_failure_amended.2.1 ("N/A") (by decide)
  · exact c3_field_failure_amended.2.2.2 ("99999999999999999999%") (by decide)

/-- C7 counterexample: the claim "every Canonical Reading satisfies
utilization_percent in [0, 100]" fails: a document whose utilization field
is "200%" produces a reading with utilization 200. -/
theorem c7_invariant_violation_cex :
    nvidiaReadings [⟨"0", "G", "10 MiB", "200%"⟩] = [⟨"0", "G", 10485760, 200⟩] ∧
    ¬ ((200 : Int) ≤ 100) := by decide

/-- C8: for every input string whose cleaned numeric part is malformed
(non-numeric content or numeric part absent), the percentage normalizer
returns a recorded error and the memory normalizer returns zero together
with a recorded error.  Both normalizers are total Lean functions, so
no input can make them panic. -/
theorem c8_malformed_input_errors :
    ∀ s : String,
      (looksNumeric (trimSpaceGo (removePct s.data)) = false →
         (parsePercentage s).2.isSome = true) ∧
      (looksNumeric (trimSpaceGo (removeMiB s.data)) = false →
         (parseMemory s).2.isSome = true ∧ (parseMemory s).1 = 0) := by
  intro s
  constructor
  · intro h
    exact parseIntGo_err_of_not_numeric h
  · intro h
    have he := parseIntGo_err_of_not_numeric h
    unfold parseMemory
    rcases hp : parseIntGo (trimSpaceGo (removeMiB s.data)) with ⟨v, e⟩
    rw [hp] at he
    cases e <;> simp_all

/-- C8 witness: the real-world `nvidia-smi` placeholder "N/A" errors in both
normalizers and the memory value defaults to zero. -/
theorem c8_malformed_input_errors_witness :
    (parsePercentage ("N/A")).2.isSome = true ∧ (parseMemory ("N/A")).1 = 0 := by
  have h := c8_malformed_input_errors ("N/A")
  exact ⟨h.1 (by decide), (h.2 (by decide)).2⟩

theorem Dec.toQ_nonneg_iff (d : Dec) : 0 ≤ d.toQ ↔ 0 ≤ d.m := by
  unfold Dec.toQ
  split_ifs with he
  · have hp : (0 : ℚ) < (10 : ℚ) ^ d.e.toNat := by positivity
    rw [mul_nonneg_iff_of_pos_right hp]
    exact Int.cast_nonneg
  · have hp : (0 : ℚ) < (10 : ℚ) ^ (-d.e).toNat := by positivity
    rw [le_div_iff₀ hp, zero_mul]
    exact Int.cast_nonneg

theorem Dec.trunc_mulNat_nonneg {d : Dec} (k : ℕ) (hm : 0 ≤ d.m) :
    0 ≤ (d.mulNat k).trunc := by
  unfold Dec.mulNat Dec.trunc
  simp only
  split_ifs with h1 h2
  · exact mul_nonneg (mul_nonneg hm (by positivity)) (by positivity)
  · exact Int.natCast_nonneg _
  · exact (h2 (mul_nonneg hm (by positivity))).elim

theorem Dec.trunc_mulNat_le {d : Dec} (k : ℕ) (hm : 0 ≤ d.m) (hle : d.toQ ≤ 1) :
    (d.mulNat k).trunc ≤ (k : Int) := by
  unfold Dec.toQ at hle
  unfold Dec.mulNat Dec.trunc
  simp only
  by_cases he : (0 : Int) ≤ d.e
  · rw [if_pos he] at hle ⊢
    have hZ : d.m * ((10 ^ d.e.toNat : ℕ) : ℤ) ≤ 1 := by exact_mod_cast hle
    calc d.m * (k : ℤ) * ((10 ^ d.e.toNat : ℕ) : ℤ)
        = d.m * ((10 ^ d.e.toNat : ℕ) : ℤ) * (k : ℤ) := by ring
      _ ≤ 1 * (k : ℤ) := mul_le_mul_of_nonneg_right hZ (by positivity)
      _ = (k : ℤ) := one_mul _
  · rw [if_neg he] at hle ⊢
    rw [if_pos (mul_nonneg hm (by positivity))]
    have hp : (0 : ℚ) < (10 : ℚ) ^ (-d.e).toNat := by positivity
    have hQ : (d.m : ℚ) ≤ (10 : ℚ) ^ (-d.e).toNat := (div_le_one hp).mp hle
    have hZ : d.m ≤ ((10 ^ (-d.e).toNat : ℕ) : ℤ) := by exact_mod_cast hQ
    have hNpos : 0 < 10 ^ (-d.e).toNat := by positivity
    have htn : (d.m * (k : ℤ)).toNat = d.m.toNat * k := by
      have h1 : ((d.m * (k : ℤ)).toNat : ℤ) = d.m * (k : ℤ) :=
        Int.toNat_of_nonneg (mul_nonneg hm (by positivity))
      have h2 : ((d.m.toNat * k : ℕ) : ℤ) = d.m * (k : ℤ) := by
        push_cast [Int.toNat_of_nonneg hm]; ring
      exact_mod_cast h1.trans h2.symm
    rw [htn]
    have hmn : d.m.toNat ≤ 10 ^ (-d.e).toNat := by omega
    have hdiv : d.m.toNat * k / 10 ^ (-d.e).toNat ≤
        10 ^ (-d.e).toNat * k / 10 ^ (-d.e).toNat :=
      Nat.div_le_div_right (Nat.mul_le_mul_right k hmn)
    rw [Nat.mul_div_cancel_left k hNpos] at hdiv
    exact_mod_cast hdiv

theorem parseOptionalFloat_of_nonNumeric {o : Option Json}
    (h : nonNumericFieldB o = true) : parseOptionalFloat o = ⟨0, 0⟩ := by
  match o with
  | none => rfl
  | some Json.null => rfl
  | some (Json.bool b) => rfl
  | some (Json.num d) => simp [nonNumericFieldB] at h
  | some (Json.str s) =>
    simp only [nonNumericFieldB, Option.isNone_iff_eq_none] at h
    simp [parseOptionalFloat, h]
  | some (Json.arr xs) => rfl
  | some (Json.obj kvs) => rfl

theorem goSprintV_nat_small {n : ℕ} (hn : n < 1000000) :
    goSprintV (some (Json.num ⟨(n : Int), 0⟩)) = toString n := by
  have h1 : (Dec.mk (n : Int) 0).toIntIfExact? = some (n : Int) := by
    unfold Dec.toIntIfExact?
    norm_num
  show goFormatF64 ⟨(n : Int), 0⟩ = toString n
  simp only [goFormatF64, h1]
  rw [if_pos (by simpa using hn)]
  rfl

theorem dynologCollect_consumes (ls : List String) :
    ∃ k : ℕ, (dynologCollect ls).2 = ls.drop k ∧
      (dynologCollect ls).1 = (dynologCollect (ls.take k)).1 := by
  induction ls with
  | nil => exact ⟨0, rfl, rfl⟩
  | cons l t ih =>
    cases hf : findData l.data with
    | some raw => refine ⟨1, ?_, ?_⟩ <;> simp [dynologCollect, hf]
    | none =>
      obtain ⟨k, h1, h2⟩ := ih
      refine ⟨k + 1, ?_, ?_⟩
      · simpa [dynologCollect, hf] using h1
      · simpa [dynologCollect, hf] using h2

/-- C4: the Stream-Tail Collector skips any prefix of lines not matching the
`data = {json}` pattern and returns the result derived from the first
matching line's captured JSON payload, leaving the cursor right after that
line; if every line is non-matching and the stream ends, it returns the
stream-ended error. -/
theorem c4_stream_skip_and_end :
    (∀ (noise : List String) (m : String) (payload : List Char) (rest : List String),
       (∀ l ∈ noise, findData l.data = none) →
       findData m.data = some payload →
       dynologCollect (noise ++ m :: rest) = (dynologProcessPayload payload, rest)) ∧
    (∀ ls : List String, (∀ l ∈ ls, findData l.data = none) →
       dynologCollect ls = (Except.error ("no dynolog JSON lines found yet"), [])) := by
  constructor
  · intro noise m payload rest hn hp
    induction noise with
    | nil => simp [dynologCollect, hp]
    | cons l t ih =>
      have hl := hn l (by simp)
      simp only [List.cons_append, dynologCollect, hl]
      exact ih (fun x hx => hn x (by simp [hx]))
  · intro ls h
    induction ls with
    | nil => rfl
    | cons l t ih =>
      have hl := h l (by simp)
      simp only [dynologCollect, hl]
      exact ih (fun x hx => h x (by simp [hx]))

/-- C4 witness: one noise line then a matching line yields the reading
derived from the JSON payload; an all-noise stream yields the stream-ended
error. -/
theorem c4_stream_skip_and_end_witness :
    dynologCollect ["I0423 dcgm rolling",
        "data = \x7b\"device\":0,\"sm_active_ratio\":\"0.5\"\x7d"] =
      (Except.ok [⟨"0", "DCGM-GPU", 0, 50⟩], []) ∧
    dynologCollect ["I0423 a", "I0423 b"] =
      (Except.error ("no dynolog JSON lines found yet"), []) := by
  constructor
  · have h := c4_stream_skip_and_end.1 ["I0423 dcgm rolling"]
      ("data = \x7b\"device\":0,\"sm_active_ratio\":\"0.5\"\x7d")
      (("\x7b\"device\":0,\"sm_active_ratio\":\"0.5\"\x7d").data) []
      (by decide) (by decide)
    simp only [List.cons_append, List.nil_append] at h
    rw [h]
    rfl
  · exact c4_stream_skip_and_end.2 ["I0423 a", "I0423 b"] (by decide)

/-- C5: a Canonical Reading built by the Stream-Tail Collector from a
decoded JSON record whose `device` index is an integer below 10^6 (the
range where Go's `%v` float64 rendering is the plain decimal string) and
whose two ratio fields lie in the float64-exact domain `Dec.fpExactSmall`
(dyadic value, small mantissa — there the program's parse, multiply and
int64-truncate compute exactly the rational arithmetic this model
performs) satisfies: device id is the index rendered as a decimal string,
name is the fixed placeholder "DCGM-GPU", memory bytes is the
`gpu_memory_utilization` field times the conversion constant 1024*1024
truncated to integer, and utilization is the `sm_active_ratio` field times
100 truncated to integer. -/
theorem c5_reading_from_json_record (raw : List Char) (kvs : List (String × Json)) (n : ℕ)
    (hm : jsonUnmarshalMap raw = some kvs)
    (hdev : jLookup kvs ("device") = some (Json.num ⟨(n : Int), 0⟩))
    (hn : n < 1000000)
    (_hmx : (parseOptionalFloat (jLookup kvs ("gpu_memory_utilization"))).fpExactSmall)
    (_hsx : (parseOptionalFloat (jLookup kvs ("sm_active_ratio"))).fpExactSmall) :
    dynologProcessPayload raw =
      Except.ok [⟨toString n, "DCGM-GPU",
        ((parseOptionalFloat (jLookup kvs ("gpu_memory_utilization"))).mulNat
          (1024 * 1024)).trunc,
        ((parseOptionalFloat (jLookup kvs ("sm_active_ratio"))).mulNat 100).trunc⟩] := by
  simp only [dynologProcessPayload, hm, hdev, goSprintV_nat_small hn]

/-- C5 witness: a concrete record with device 3, integer memory ratio 2
(= 2 / 2^0) and quoted activity ratio "0.25" (= 1 / 2^2), both inside the
float64-exact domain. -/
theorem c5_reading_from_json_record_witness :
    dynologProcessPayload
        (("\x7b\"device\":3,\"gpu_memory_utilization\":2,\"sm_active_ratio\":\"0.25\"\x7d").data) =
      Except.ok [⟨"3", "DCGM-GPU", 2097152, 25⟩] := by
  have h := c5_reading_from_json_record
    (("\x7b\"device\":3,\"gpu_memory_utilization\":2,\"sm_active_ratio\":\"0.25\"\x7d").data)
    [("device", Json.num ⟨3, 0⟩), ("gpu_memory_utilization", Json.num ⟨2, 0⟩),
      ("sm_active_ratio", Json.str ("0.25"))]
    3 (by rfl) (by rfl) (by decide)
    ⟨2, 0, by norm_num, by norm_num,
      by show (Dec.mk 2 0).toQ = (2 : ℚ) / 2 ^ 0; norm_num [Dec.toQ]⟩
    ⟨1, 2, by norm_num, by norm_num,
      by show (Dec.mk 25 (-2)).toQ = (1 : ℚ) / 2 ^ 2
         norm_num [Dec.toQ, show Int.toNat 2 = 2 from rfl]⟩
  rw [h]
  rfl

/-- C6: on any stream, a `Collect` call consumes a prefix of the lines —
its result is fully determined by the consumed prefix (`take k₁`) and the
cursor it leaves behind is exactly the rest (`drop k₁`); a second call then
consumes a further prefix of that remainder only, leaving
`drop (k₁ + k₂)`.  The two calls therefore examine disjoint segments of the
underlying stream: the cursor only moves forward and no line consumed by
the first call is re-delivered to or re-examined by the second. -/
theorem c6_cursor_never_redelivers (ls : List String) :
    ∃ k₁ k₂ : ℕ,
      (dynologCollect ls).2 = ls.drop k₁ ∧
      (dynologCollect ls).1 = (dynologCollect (ls.take k₁)).1 ∧
      (dynologCollect (ls.drop k₁)).2 = ls.drop (k₁ + k₂) ∧
      (dynologCollect (ls.drop k₁)).1 =
        (dynologCollect ((ls.drop k₁).take k₂)).1 := by
  obtain ⟨k₁, h1, h2⟩ := dynologCollect_consumes ls
  obtain ⟨k₂, h3, h4⟩ := dynologCollect_consumes (ls.drop k₁)
  refine ⟨k₁, k₂, h1, h2, ?_, h4⟩
  rw [h3, List.drop_drop]

/-- C7 amended: readings satisfy the data-model invariants whenever the
source fields are themselves in range.  Snapshot: a record whose memory
field is `<n> MiB` with n * 1048576 below 2^63 and whose utilization field
is `<p>%` with p at most 100 yields a reading with non-negative memory
bytes and utilization in [0, 100].  Stream-Tail: a decoded record whose
memory-utilization ratio is non-negative and at most 2^42 — so the byte
product stays at most 2^62, inside the int64 range where Go's
float64-to-int64 conversion is defined (outside it the conversion is
implementation-defined and can even go negative) — and whose activity
ratio is in [0, 1] yields such a reading.  (Unconditionally the claim is
false: the collectors never clamp, see the counterexample.) -/
theorem c7_invariants_amended :
    (∀ (g : SMIGPU) (ds ps : List Char),
       g.fbMemoryUsed.data = ds ++ [' ', 'M', 'i', 'B'] → ds ≠ [] →
       (∀ c ∈ ds, isDigitC c = true) → digitsVal ds * 1048576 < 2 ^ 63 →
       g.gpuUtil.data = ps ++ ['%'] → ps ≠ [] →
       (∀ c ∈ ps, isDigitC c = true) → digitsVal ps ≤ 100 →
       ∀ r ∈ nvidiaReadings [g],
         0 ≤ r.memoryUsedBytes ∧ 0 ≤ r.gpuUtilPercent ∧ r.gpuUtilPercent ≤ 100) ∧
    (∀ (raw : List Char) (kvs : List (String × Json)) (rs : List GPUData),
       jsonUnmarshalMap raw = some kvs →
       0 ≤ (parseOptionalFloat (jLookup kvs ("gpu_memory_utilization"))).toQ →
       (parseOptionalFloat (jLookup kvs ("gpu_memory_utilization"))).toQ ≤ 2 ^ 42 →
       0 ≤ (parseOptionalFloat (jLookup kvs ("sm_active_ratio"))).toQ →
       (parseOptionalFloat (jLookup kvs ("sm_active_ratio"))).toQ ≤ 1 →
       dynologProcessPayload raw = Except.ok rs →
       ∀ r ∈ rs,
         0 ≤ r.memoryUsedBytes ∧ 0 ≤ r.gpuUtilPercent ∧ r.gpuUtilPercent ≤ 100) := by
  constructor
  · intro g ds ps hmem hdne hdd hdp hutil hpne hpd hple r hr
    have hvlt : digitsVal ds < 2 ^ 63 := by
      have := Nat.le_mul_of_pos_right (digitsVal ds) (show 0 < 1048576 by norm_num)
      omega
    have hub : digitsVal ps < 2 ^ 63 := by omega
    have hpm := parseMemory_digits hmem hdne hdd hvlt
    have hpp := parsePercentage_digits hutil hpne hpd hub
    simp only [nvidiaReadings, List.map_cons, List.map_nil, List.mem_singleton] at hr
    subst hr
    have hcast : (digitsVal ds : Int) * 1024 * 1024 =
        ((digitsVal ds * 1048576 : ℕ) : Int) := by push_cast; ring
    have hm1 : (parseMemory g.fbMemoryUsed).1 =
        wrapInt64 ((digitsVal ds : Int) * 1024 * 1024) := by rw [hpm]
    have hp1 : (parsePercentage g.gpuUtil).1 = (digitsVal ps : Int) := by rw [hpp]
    have hnn : (0 : Int) ≤ (digitsVal ds : Int) * 1024 * 1024 :=
      mul_nonneg (mul_nonneg (Int.natCast_nonneg _) (by norm_num)) (by norm_num)
    refine ⟨?_, ?_, ?_⟩
    · show 0 ≤ (parseMemory g.fbMemoryUsed).1
      rw [hm1, wrapInt64_eq_self (by omega) (by rw [hcast]; exact_mod_cast hdp)]
      exact hnn
    · show 0 ≤ (parsePercentage g.gpuUtil).1
      rw [hp1]; exact Int.natCast_nonneg _
    · show (parsePercentage g.gpuUtil).1 ≤ 100
      rw [hp1]; exact_mod_cast hple
  · intro raw kvs rs hm h1 _h1b h2 h3 hok r hr
    simp only [dynologProcessPayload, hm, Except.ok.injEq] at hok
    subst hok
    simp only [List.mem_singleton] at hr
    subst hr
    have hm1 : 0 ≤ (parseOptionalFloat (jLookup kvs ("gpu_memory_utilization"))).m :=
      (Dec.toQ_nonneg_iff _).mp h1
    have hm2 : 0 ≤ (parseOptionalFloat (jLookup kvs ("sm_active_ratio"))).m :=
      (Dec.toQ_nonneg_iff _).mp h2
    exact ⟨Dec.trunc_mulNat_nonneg _ hm1, Dec.trunc_mulNat_nonneg _ hm2,
      Dec.trunc_mulNat_le 100 hm2 h3⟩

/-- C7 witness: a snapshot record "10 MiB"/"42%" and a stream record with
ratio fields 1 and "0.5" both land inside the invariants. -/
theorem c7_invariants_amended_witness :
    (0 ≤ (GPUData.mk ("0") ("G") 10485760 42).memoryUsedBytes ∧
       0 ≤ (GPUData.mk ("0") ("G") 10485760 42).gpuUtilPercent ∧
       (GPUData.mk ("0") ("G") 10485760 42).gpuUtilPercent ≤ 100) ∧
    (0 ≤ (GPUData.mk ("<nil>") ("DCGM-GPU") 1048576 50).memoryUsedBytes ∧
       0 ≤ (GPUData.mk ("<nil>") ("DCGM-GPU") 1048576 50).gpuUtilPercent ∧
       (GPUData.mk ("<nil>") ("DCGM-GPU") 1048576 50).gpuUtilPercent ≤ 100) := by
  constructor
  · exact c7_invariants_amended.1 ⟨"0", "G", "10 MiB", "42%"⟩ ['1', '0'] ['4', '2']
      (by decide) (by decide) (by decide) (by decide) (by decide) (by decide)
      (by decide) (by decide) _ (by decide)
  · exact c7_invariants_amended.2
      (("\x7b\"gpu_memory_utilization\":1,\"sm_active_ratio\":\"0.5\"\x7d").data)
      [("gpu_memory_utilization", Json.num ⟨1, 0⟩), ("sm_active_ratio", Json.str ("0.5"))]
      [⟨"<nil>", "DCGM-GPU", 1048576, 50⟩]
      (by rfl)
      (by show (0 : ℚ) ≤ (Dec.mk 1 0).toQ; norm_num [Dec.toQ])
      (by show (Dec.mk 1 0).toQ ≤ 2 ^ 42; norm_num [Dec.toQ])
      (by show (0 : ℚ) ≤ (Dec.mk 5 (-1)).toQ; norm_num [Dec.toQ])
      (by show (Dec.mk 5 (-1)).toQ ≤ 1; norm_num [Dec.toQ])
      (by rfl) _ (by decide)

/-- C10: in the untyped-map variant, absent JSON fields do not error: a
record without a `device` key yields device id `<nil>` (fmt's rendering of
a nil interface), and a missing or non-numeric `gpu_memory_utilization` or
`sm_active_ratio` field is treated as 0, giving memory 0 and utilization
0. -/
theorem c10_untyped_missing_fields (raw : List Char) (kvs : List (String × Json))
    (hm : jsonUnmarshalMap raw = some kvs)
    (hdev : jLookup kvs ("device") = none)
    (hmem : nonNumericFieldB (jLookup kvs ("gpu_memory_utilization")) = true)
    (hsm : nonNumericFieldB (jLookup kvs ("sm_active_ratio")) = true) :
    dynologProcessPayload raw = Except.ok [⟨"<nil>", "DCGM-GPU", 0, 0⟩] := by
  simp only [dynologProcessPayload, hm, hdev,
    parseOptionalFloat_of_nonNumeric hmem, parseOptionalFloat_of_nonNumeric hsm]
  rfl

/-- C10 witness: a record with no `device` key, a non-numeric string memory
field and a boolean activity field. -/
theorem c10_untyped_missing_fields_witness :
    dynologProcessPayload
        (("\x7b\"gpu_memory_utilization\":\"abc\",\"sm_active_ratio\":true\x7d").data) =
      Except.ok [⟨"<nil>", "DCGM-GPU", 0, 0⟩] :=
  c10_untyped_missing_fields
    (("\x7b\"gpu_memory_utilization\":\"abc\",\"sm_active_ratio\":true\x7d").data)
    [("gpu_memory_utilization", Json.str ("abc")), ("sm_active_ratio", Json.bool true)]
    (by rfl) (by rfl) (by rfl) (by rfl)
